import Mathlib

/-
Shallow embedding of the youtube_scraper pipeline (src/index.ts).

Strings are modelled as lists of characters so that the regex-based
extraction functions can be translated faithfully and reasoned about by
structural induction.  Remote calls (fetch + JSON decode) are modelled by
an environment of oracles: each oracle returns either an error value
(a thrown network/JSON failure) or the decoded response object.
-/

namespace YTS

/-- Strings of the TypeScript program, modelled as lists of characters. -/
abbrev Str := List Char

/-- interface YouTubeApiResponse of index.ts: a decoded API response body. -/
structure YouTubeApiResponse (T : Type) where
  items : List T
deriving DecidableEq

/-- interface Channel of index.ts. -/
structure Channel where
  id : Str
deriving DecidableEq

/-- interface VideoSnippet of index.ts (Date-or-string fields kept as strings). -/
structure VideoSnippet where
  title : Str
  channelId : Str
  description : Str
  channelTitle : Str
  publishedAt : Str
  publishTime : Str
deriving DecidableEq

/-- interface VideoId of index.ts. -/
structure VideoId where
  videoId : Str
deriving DecidableEq

/-- interface VideoItem of index.ts. -/
structure VideoItem where
  id : VideoId
  snippet : VideoSnippet
deriving DecidableEq

/-- interface VideoData of index.ts; the optional enrichment fields are
Options, absent (undefined) being none. -/
structure VideoData where
  title : Str
  url : Str
  channelId : Str
  description : Str
  channelTitle : Str
  publishedAt : Str
  publishTime : Str
  viewCount : Option Str := none
  likeCount : Option Str := none
  commentCount : Option Str := none
  duration : Option Str := none
  readableDuration : Option Str := none
deriving DecidableEq

/-- statistics object of the videos endpoint response item. -/
structure Statistics where
  viewCount : Str
  likeCount : Str
  commentCount : Str
deriving DecidableEq

/-- contentDetails object of the videos endpoint response item. -/
structure ContentDetails where
  duration : Str
deriving DecidableEq

/-- one item of the videos (detail) endpoint response. -/
structure DetailItem where
  statistics : Statistics
  contentDetails : ContentDetails
deriving DecidableEq

/-- Character class of the regex [a-zA-Z0-9_-] in extractHandleFromUrl. -/
def allowedChar (c : Char) : Bool :=
  (65 ≤ c.toNat && c.toNat ≤ 90) || (97 ≤ c.toNat && c.toNat ≤ 122) ||
  (48 ≤ c.toNat && c.toNat ≤ 57) || c.toNat == 95 || c.toNat == 45

/-- The literal part of the regex in extractHandleFromUrl. -/
def atMark : Str := ("youtube.com/@").toList

/-- function extractHandleFromUrl of index.ts:
url.match(/youtube.com\/@([a-zA-Z0-9_-]+)/) — scan for the leftmost
position where the literal is followed by at least one allowed character
and return that maximal run, else null. -/
def extractHandleFromUrl : Str → Option Str
  | [] => none
  | c :: rest =>
    if atMark.isPrefixOf (c :: rest) &&
       !((c :: rest).drop atMark.length |>.takeWhile allowedChar).isEmpty then
      some ((c :: rest).drop atMark.length |>.takeWhile allowedChar)
    else
      extractHandleFromUrl rest

/-- function getChannelId of index.ts, as a function of the decoded
response (or the thrown error): json.items?.[0]?.id || null.  The
JavaScript || collapses a falsy first id — the empty string — to null. -/
def getChannelId (resp : Except Unit (YouTubeApiResponse Channel)) : Option Str :=
  match resp with
  | .error _ => none
  | .ok json =>
    match json.items.head? with
    | none => none
    | some c => if c.id.isEmpty then none else some c.id

/-- URL literal prefixed to a video id in getVideos. -/
def watchStem : Str := ("https://www.youtube.com/watch?v=").toList

/-- The per-item reshaping lambda inside getVideos of index.ts. -/
def summarize (video : VideoItem) : VideoData :=
  { title := video.snippet.title
    url := watchStem ++ video.id.videoId
    channelId := video.snippet.channelId
    description := video.snippet.description
    channelTitle := video.snippet.channelTitle
    publishedAt := video.snippet.publishedAt
    publishTime := video.snippet.publishTime }

/-- The search-endpoint URL built by getVideos of index.ts. -/
def searchUrl (key channelId : Str) : Str :=
  ("https://www.googleapis.com/youtube/v3/search?key=").toList ++ key ++
  ("&channelId=").toList ++ channelId ++
  ("&part=snippet&type=video&maxResults=10").toList

/-- function getVideos of index.ts as a function of the decoded response:
maps every response item to a VideoData; on a thrown error returns []. -/
def getVideos (resp : Except Unit (YouTubeApiResponse VideoItem)) : List VideoData :=
  match resp with
  | .error _ => []
  | .ok json => json.items.map summarize

/-- function getVideoDetails of index.ts as a function of the decoded
response: first response item if the items list is nonempty, else null;
null also on a thrown error. -/
def getVideoDetails (resp : Except Unit (YouTubeApiResponse DetailItem)) : Option DetailItem :=
  match resp with
  | .error _ => none
  | .ok json => json.items.head?

/-- Position of the first occurrence of the literal PT, returning the
characters after it; none when the string has no PT (then the regex
/PT(\d+H)?(\d+M)?(\d+S)?/ cannot match and parseDuration returns its
input unchanged). -/
def findPT : Str → Option Str
  | [] => none
  | 'P' :: 'T' :: rest => some rest
  | _ :: rest => findPT rest

/-- Numeric value of a digit run, as parseInt(..., 10) computes it. -/
def digitsVal (ds : Str) : Nat :=
  ds.foldl (fun a c => a * 10 + (c.toNat - 48)) 0

/-- One optional regex group (\d+X)? at the current position: a maximal
nonempty digit run immediately followed by the marker letter consumes
both and yields its value; otherwise the group is empty (value 0 via the
( || "0") fallback of index.ts) and consumes nothing. -/
def grabComp (marker : Char) (s : Str) : Nat × Str :=
  let ds := s.takeWhile Char.isDigit
  match (s.drop ds.length).head? with
  | some c =>
    if !ds.isEmpty && c == marker then
      (digitsVal ds, s.drop (ds.length + 1))
    else
      (0, s)
  | none => (0, s)

/-- String.trim of JavaScript: whitespace stripped from both ends
(here only the space character can occur). -/
def trimSpaces (s : Str) : Str :=
  ((s.dropWhile (· == ' ')).reverse.dropWhile (· == ' ')).reverse

/-- function parseDuration of index.ts. -/
def parseDuration (duration : Str) : Str :=
  match findPT duration with
  | none => duration
  | some tail =>
    let h := grabComp 'H' tail
    let m := grabComp 'M' h.2
    let s := grabComp 'S' m.2
    let hours := h.1
    let minutes := m.1
    let seconds := s.1
    trimSpaces
      ((if hours > 0 then Nat.toDigits 10 hours ++ ['h', ' '] else []) ++
       (if minutes > 0 then Nat.toDigits 10 minutes ++ ['m', ' '] else []) ++
       (if seconds > 0 then Nat.toDigits 10 seconds ++ ['s'] else []))

/-- Characters after the first occurrence of the split token v= in a
string; none when the token does not occur. -/
def splitVTail : Str → Option Str
  | [] => none
  | 'v' :: '=' :: rest => some rest
  | _ :: rest => splitVTail rest

/-- Characters up to (excluding) the next occurrence of the token v=. -/
def takeUntilV : Str → Str
  | [] => []
  | 'v' :: '=' :: _ => []
  | c :: rest => c :: takeUntilV rest

/-- video.url.split("v=")[1] of index.ts: the segment between the first
and second occurrence of v= (to the end when there is no second). -/
def splitV1 (s : Str) : Str :=
  match splitVTail s with
  | none => []
  | some t => takeUntilV t

/-- The body of the details branch at lines 231-235 of index.ts: copy the
three statistics counts and set readableDuration from video.duration
(line 234, which would set duration, is commented out in the source, so
duration is left untouched). -/
def applyDetails (d : DetailItem) (video : VideoData) : VideoData :=
  { video with
    viewCount := some d.statistics.viewCount
    likeCount := some d.statistics.likeCount
    commentCount := some d.statistics.commentCount
    readableDuration := some (parseDuration (video.duration.getD [])) }

/-- The per-video body of the inner loop of processYouTubeChannels:
look up details for the id split out of the video url; on a hit, merge
the statistics; on a miss, leave the video unchanged. -/
def enrich (lookup : Str → Option DetailItem) (video : VideoData) : VideoData :=
  match lookup (splitV1 video.url) with
  | none => video
  | some d => applyDetails d video

/-- The remote world of one run: for each handle, channel id, and video
id, the decoded response (or thrown error) that the corresponding fetch
would produce, plus the URL list the sheet read yields. -/
structure Env where
  sheetUrls : List Str
  channelResp : Str → Except Unit (YouTubeApiResponse Channel)
  searchResp : Str → Except Unit (YouTubeApiResponse VideoItem)
  detailResp : Str → Except Unit (YouTubeApiResponse DetailItem)

/-- Videos one input row contributes: the body of the for-of loop of
processYouTubeChannels. A row whose handle extraction or channel
resolution fails is skipped (continue) and contributes nothing. -/
def processRow (env : Env) (url : Str) : List VideoData :=
  match extractHandleFromUrl url with
  | none => []
  | some handle =>
    match getChannelId (env.channelResp handle) with
    | none => []
    | some channelId =>
      (getVideos (env.searchResp channelId)).map
        (enrich (fun vid => getVideoDetails (env.detailResp vid)))

/-- The accumulating for-of loop of processYouTubeChannels: allVideos is
the accumulator, each row's videos are pushed onto its end. -/
def runLoop (env : Env) : List Str → List VideoData → List VideoData
  | [], acc => acc
  | u :: us, acc => runLoop env us (acc ++ processRow env u)

/-- function processYouTubeChannels of index.ts, returning the collection
handed to writeToExcel: the input list is truncated by slice(0, 5)
before the loop runs. -/
def processYouTubeChannels (env : Env) : List VideoData :=
  runLoop env (env.sheetUrls.take 5) []

/-- The regex of extractHandleFromUrl matches at position i: the literal
youtube.com/@ starts there and at least one allowed character follows. -/
def goodAt (s : Str) (i : Nat) : Bool :=
  atMark.isPrefixOf (s.drop i) &&
  !(((s.drop i).drop atMark.length).takeWhile allowedChar).isEmpty

/-- A catalog response carrying twelve items, to probe the claimed
ten-item cap of getVideos. -/
def twelveItems : YouTubeApiResponse VideoItem :=
  { items := List.replicate 12
      { id := { videoId := ("abc123").toList }
        snippet := { title := ("t").toList, channelId := ("c").toList,
                     description := ("d").toList, channelTitle := ("ct").toList,
                     publishedAt := ("p1").toList, publishTime := ("p2").toList } } }

/-- A channel-lookup response whose single matching record carries the
empty string as its id. -/
def emptyIdLookup : YouTubeApiResponse Channel := { items := [{ id := [] }] }

/-- A concrete input URL carrying a handle. -/
def demoUrl : Str := ("youtube.com/@a").toList

/-- A concrete catalog item. -/
def demoItem : VideoItem :=
  { id := { videoId := ("abc123").toList }
    snippet := { title := ("t").toList, channelId := ("c").toList,
                 description := ("d").toList, channelTitle := ("ct").toList,
                 publishedAt := ("p1").toList, publishTime := ("p2").toList } }

/-- A concrete detail item. -/
def demoDetail : DetailItem :=
  { statistics := { viewCount := ("10").toList, likeCount := ("2").toList,
                    commentCount := ("1").toList }
    contentDetails := { duration := ("PT1M").toList } }

/-- A concrete run environment whose single row resolves and whose
per-video detail lookups all succeed. -/
def demoEnvHit : Env :=
  { sheetUrls := [demoUrl]
    channelResp := fun _ => .ok { items := [{ id := ("UC1").toList }] }
    searchResp := fun _ => .ok { items := [demoItem] }
    detailResp := fun _ => .ok { items := [demoDetail] } }

/-- Same environment except every detail lookup returns an empty items
list, so getVideoDetails yields null. -/
def demoEnvMiss : Env :=
  { demoEnvHit with detailResp := fun _ => .ok { items := [] } }

/-- An environment of seven input URLs whose remote calls all fail, to
probe the five-row input cap. -/
def sevenEnv : Env :=
  { sheetUrls :=
      [("youtube.com/@a1").toList, ("youtube.com/@a2").toList,
       ("youtube.com/@a3").toList, ("youtube.com/@a4").toList,
       ("youtube.com/@a5").toList, ("youtube.com/@a6").toList,
       ("youtube.com/@a7").toList]
    channelResp := fun _ => .error ()
    searchResp := fun _ => .error ()
    detailResp := fun _ => .error () }

/-- An environment of two rows where the first row resolves but its
catalog fetch throws, to probe the fail-soft policy of getVideos. -/
def failEnv : Env :=
  { sheetUrls := [demoUrl, ("youtube.com/@b").toList]
    channelResp := fun _ => .ok { items := [{ id := ("UC1").toList }] }
    searchResp := fun _ => .error ()
    detailResp := fun _ => .error () }

/-- The regex of extractHandleFromUrl can match nowhere in the empty string. -/
theorem goodAt_nil (i : Nat) : goodAt [] i = false := by
  simp only [goodAt, List.drop_nil]
  decide

/-- Shifting the match position by one steps into the tail of the string. -/
theorem goodAt_succ (c : Char) (cs : Str) (i : Nat) :
    goodAt (c :: cs) (i + 1) = goodAt cs i := rfl

/-- Unfolding of the scan of extractHandleFromUrl on a nonempty string. -/
theorem extractHandleFromUrl_cons (c : Char) (cs : Str) :
    extractHandleFromUrl (c :: cs) =
      if goodAt (c :: cs) 0 = true then
        some (((c :: cs).drop atMark.length).takeWhile allowedChar)
      else extractHandleFromUrl cs := rfl

/-- C7: for every URL string containing the literal youtube.com/@ followed
by at least one character from the class [a-zA-Z0-9_-],
extractHandleFromUrl returns the maximal allowed-character run after the
first such occurrence; for every string with no such occurrence it
returns none, and it is total (no other failure mode, no side effects). -/
theorem extractHandleFromUrl_regex_spec : ∀ (s : Str),
    (extractHandleFromUrl s = none ↔ ∀ i, goodAt s i = false) ∧
    (∀ i, goodAt s i = true → (∀ j, j < i → goodAt s j = false) →
       extractHandleFromUrl s =
         some (((s.drop i).drop atMark.length).takeWhile allowedChar))
  | [] => by
      constructor
      · simp [extractHandleFromUrl, goodAt_nil]
      · intro i hi _
        rw [goodAt_nil i] at hi
        cases hi
  | c :: cs => by
      rcases extractHandleFromUrl_regex_spec cs with ⟨ih1, ih2⟩
      cases h0 : goodAt (c :: cs) 0 with
      | true =>
        have hx : extractHandleFromUrl (c :: cs) =
            some (((c :: cs).drop atMark.length).takeWhile allowedChar) := by
          rw [extractHandleFromUrl_cons, if_pos h0]
        constructor
        · constructor
          · intro hnone
            rw [hx] at hnone
            cases hnone
          · intro hall
            rw [hall 0] at h0
            cases h0
        · intro i hi hmin
          cases i with
          | zero => simpa using hx
          | succ j =>
            have hz : goodAt (c :: cs) 0 = false := hmin 0 (Nat.succ_pos j)
            rw [hz] at h0
            cases h0
      | false =>
        have hx : extractHandleFromUrl (c :: cs) = extractHandleFromUrl cs := by
          rw [extractHandleFromUrl_cons, if_neg]
          simp [h0]
        constructor
        · rw [hx, ih1]
          constructor
          · intro hall i
            cases i with
            | zero => exact h0
            | succ j =>
              rw [goodAt_succ]
              exact hall j
          · intro hall i
            rw [← goodAt_succ c cs i]
            exact hall (i + 1)
        · intro i hi hmin
          cases i with
          | zero =>
            rw [h0] at hi
            cases hi
          | succ j =>
            have hg : goodAt cs j = true := by
              rw [← goodAt_succ c]
              exact hi
            have hm : ∀ k, k < j → goodAt cs k = false := by
              intro k hk
              rw [← goodAt_succ c]
              exact hmin (k + 1) (Nat.succ_lt_succ hk)
            rw [hx, ih2 j hg hm, List.drop_succ_cons]

/-- Witness for C7 at a concrete URL: the first position where the
pattern matches is index 2, and the extracted handle is the maximal
allowed run there. -/
theorem extractHandleFromUrl_regex_spec_witness :
    extractHandleFromUrl (("x youtube.com/@Ab-9_z!").toList) =
      some (("Ab-9_z").toList) :=
  (extractHandleFromUrl_regex_spec (("x youtube.com/@Ab-9_z!").toList)).2 2
    (by decide) (by decide)

/-- C3: parseDuration maps PT2H3M4S to 2h 3m 4s, PT0S to the empty
string, PT5M to 5m, PT2H to 2h with no trailing space, and returns any
input the regex does not match (no PT anywhere, e.g. abc or the empty
string) unchanged; it is total, so no exception is possible. -/
theorem parseDuration_spec (s : Str) (h : findPT s = none) :
    parseDuration (("PT2H3M4S").toList) = ("2h 3m 4s").toList ∧
    parseDuration (("PT0S").toList) = [] ∧
    parseDuration (("PT5M").toList) = ("5m").toList ∧
    parseDuration (("PT2H").toList) = ("2h").toList ∧
    parseDuration (("abc").toList) = ("abc").toList ∧
    parseDuration [] = [] ∧
    parseDuration s = s := by
  refine ⟨by decide, by decide, by decide, by decide, by decide, by decide, ?_⟩
  simp only [parseDuration, h]

/-- Witness for C3 at the concrete non-matching input xyz. -/
theorem parseDuration_spec_witness :
    findPT (("xyz").toList) = none ∧
    parseDuration (("xyz").toList) = ("xyz").toList :=
  ⟨by decide, (parseDuration_spec (("xyz").toList) (by decide)).2.2.2.2.2.2⟩

/-- C8 counterexample: a lookup response with one matching channel record
whose id is the empty string.  The claim says the id of the first
matching record is returned, with absent reserved for zero matches or a
failed request; the code's ( || null) fallback instead collapses this
falsy id to null, so the result is absent although a match exists. -/
theorem getChannelId_counterexample :
    emptyIdLookup.items.head? = some { id := [] } ∧
    getChannelId (.ok emptyIdLookup) = none := by
  constructor <;> decide

/-- C8 amended: getChannelId returns the id of the first matching record
whenever that id is a nonempty string, and returns absent (not an
exception, not a default) when the request fails, when the response has
zero matches, or when the first record's id is the empty string (which
the JavaScript || fallback also collapses to null). -/
theorem getChannelId_spec (json : YouTubeApiResponse Channel) (c : Channel)
    (rest : List Channel) (hj : json.items = c :: rest) (hne : c.id ≠ []) :
    getChannelId (.ok json) = some c.id ∧
    getChannelId (.error ()) = none ∧
    (∀ k : YouTubeApiResponse Channel, k.items = [] → getChannelId (.ok k) = none) ∧
    (∀ k : YouTubeApiResponse Channel, ∀ d : Channel, ∀ r : List Channel,
       k.items = d :: r → d.id = [] → getChannelId (.ok k) = none) := by
  refine ⟨?_, rfl, ?_, ?_⟩
  · have hfalse : c.id.isEmpty = false := by
      cases hcid : c.id with
      | nil => exact absurd hcid hne
      | cons a as => rfl
    simp only [getChannelId, hj, List.head?, hfalse, Bool.false_eq_true,
      if_false]
  · intro k hk
    simp only [getChannelId, hk, List.head?]
  · intro k d r hk hd
    simp only [getChannelId, hk, List.head?, hd, List.isEmpty_nil, if_true]

/-- Witness for C8 at a concrete one-record response with a nonempty id. -/
theorem getChannelId_spec_witness :
    getChannelId (.ok { items := [{ id := ("UC1").toList }] }) =
      some (("UC1").toList) :=
  (getChannelId_spec { items := [{ id := ("UC1").toList }] }
    { id := ("UC1").toList } [] rfl (by decide)).1

/-- C1 counterexample: a decoded catalog response carrying twelve items.
getVideos maps every response item to a summary and never truncates, so
twelve summaries come out, refuting that at most the first ten of a
larger response appear in the output. -/
theorem getVideos_cap_counterexample :
    (getVideos (.ok twelveItems)).length = 12 ∧
    ¬ (getVideos (.ok twelveItems)).length ≤ 10 := by
  constructor <;> decide

/-- C1 amended: the ten-entry cap lives only in the request (the search
URL getVideos builds carries maxResults=10); getVideos itself performs no
client-side truncation: it returns one summary per decoded response item,
in response order, so a response that does carry twelve items yields
twelve summaries. -/
theorem getVideos_requests_ten_maps_all (key cid : Str)
    (json : YouTubeApiResponse VideoItem) :
    (∃ p : Str, searchUrl key cid = p ++ ("maxResults=10").toList) ∧
    getVideos (.ok json) = json.items.map summarize ∧
    (getVideos (.ok json)).length = json.items.length := by
  refine ⟨?_, rfl, ?_⟩
  · refine ⟨("https://www.googleapis.com/youtube/v3/search?key=").toList ++ key ++
      ("&channelId=").toList ++ cid ++ ("&part=snippet&type=video&").toList, ?_⟩
    have hsplit : ("&part=snippet&type=video&maxResults=10").toList =
        ("&part=snippet&type=video&").toList ++ ("maxResults=10").toList := by
      decide
    rw [searchUrl, hsplit]
    simp [List.append_assoc]
  · simp [getVideos]

/-- Witness for C1 at the concrete twelve-item response. -/
theorem getVideos_requests_ten_maps_all_witness :
    (getVideos (.ok twelveItems)).length = twelveItems.items.length :=
  (getVideos_requests_ten_maps_all [] [] twelveItems).2.2

/-- The accumulating loop of processYouTubeChannels appends, in row
order, exactly the concatenation of the per-row video lists. -/
theorem runLoop_flatten (env : Env) : ∀ (us : List Str) (acc : List VideoData),
    runLoop env us acc = acc ++ us.flatMap (processRow env)
  | [], acc => by simp [runLoop]
  | u :: us, acc => by
      rw [runLoop, runLoop_flatten env us (acc ++ processRow env u)]
      simp [List.append_assoc]

/-- The run's output collection is the concatenation, in input order, of
the per-row video lists of the first five input rows. -/
theorem processYouTubeChannels_flatten (env : Env) :
    processYouTubeChannels env =
      (env.sheetUrls.take 5).flatMap (processRow env) := by
  rw [processYouTubeChannels, runLoop_flatten]
  simp

/-- Enrichment never changes the url field of a video. -/
theorem enrich_url (lookup : Str → Option DetailItem) (w : VideoData) :
    (enrich lookup w).url = w.url := by
  unfold enrich
  cases lookup (splitV1 w.url) <;> rfl

/-- Every video of the output collection is the enrichment of the
summary of some catalog response item. -/
theorem mem_processYouTubeChannels (env : Env) (v : VideoData)
    (hv : v ∈ processYouTubeChannels env) :
    ∃ it : VideoItem,
      v = enrich (fun vid => getVideoDetails (env.detailResp vid)) (summarize it) := by
  rw [processYouTubeChannels_flatten] at hv
  rcases List.mem_flatMap.mp hv with ⟨u, _, hvu⟩
  cases hh : extractHandleFromUrl u with
  | none =>
    simp only [processRow, hh] at hvu
    cases hvu
  | some handle =>
    cases hc : getChannelId (env.channelResp handle) with
    | none =>
      simp only [processRow, hh, hc] at hvu
      cases hvu
    | some cid =>
      simp only [processRow, hh, hc] at hvu
      rcases List.mem_map.mp hvu with ⟨w, hw, hvw⟩
      cases hr : env.searchResp cid with
      | error e =>
        rw [hr] at hw
        cases hw
      | ok json =>
        rw [hr] at hw
        rcases List.mem_map.mp hw with ⟨it, _, hwit⟩
        exact ⟨it, by rw [← hvw, ← hwit]⟩

/-- C5: the final output collection is ordered row-major then
catalog-order: the accumulating loop over the (capped) input rows
produces exactly the concatenation, in input-row order, of each row's
video list, and within a row the videos are the catalog sequence mapped
through enrichment in catalog order. -/
theorem output_row_major_order (env : Env) :
    processYouTubeChannels env =
      (env.sheetUrls.take 5).flatMap (processRow env) ∧
    ∀ json : YouTubeApiResponse VideoItem,
      (getVideos (.ok json)).map
          (enrich (fun vid => getVideoDetails (env.detailResp vid))) =
        json.items.map
          (fun it => enrich (fun vid => getVideoDetails (env.detailResp vid))
            (summarize it)) := by
  refine ⟨processYouTubeChannels_flatten env, ?_⟩
  intro json
  simp [getVideos]

/-- Witness for C5 at the concrete all-hits demo environment. -/
theorem output_row_major_order_witness :
    processYouTubeChannels demoEnvHit =
      (demoEnvHit.sheetUrls.take 5).flatMap (processRow demoEnvHit) :=
  (output_row_major_order demoEnvHit).1

/-- C6: only a prefix of at most five input rows is processed: when the
input list splits as five rows followed by anything, the output is the
concatenation of the per-row lists of those five rows alone, so rows
beyond the fifth contribute nothing. -/
theorem input_cap_five (env : Env) (us vs : List Str)
    (h : env.sheetUrls = us ++ vs) (h5 : us.length = 5) :
    processYouTubeChannels env = us.flatMap (processRow env) := by
  rw [processYouTubeChannels_flatten, h, ← h5, List.take_left]

/-- Witness for C6: an environment of seven input URLs; the output is
the concatenation over exactly the first five. -/
theorem input_cap_five_witness :
    processYouTubeChannels sevenEnv =
      ([("youtube.com/@a1").toList, ("youtube.com/@a2").toList,
        ("youtube.com/@a3").toList, ("youtube.com/@a4").toList,
        ("youtube.com/@a5").toList]).flatMap (processRow sevenEnv) :=
  input_cap_five sevenEnv
    [("youtube.com/@a1").toList, ("youtube.com/@a2").toList,
     ("youtube.com/@a3").toList, ("youtube.com/@a4").toList,
     ("youtube.com/@a5").toList]
    [("youtube.com/@a6").toList, ("youtube.com/@a7").toList] rfl rfl

/-- C9: when the catalog fetch of a row's channel throws, getVideos
returns the empty sequence, the row contributes zero output rows, and
the run continues: the output equals the concatenation over the
remaining rows. -/
theorem catalog_fail_soft (env : Env) (u : Str) (us : List Str)
    (handle cid : Str)
    (hrows : env.sheetUrls.take 5 = u :: us)
    (hh : extractHandleFromUrl u = some handle)
    (hc : getChannelId (env.channelResp handle) = some cid)
    (hf : env.searchResp cid = .error ()) :
    getVideos (env.searchResp cid) = [] ∧
    processRow env u = [] ∧
    processYouTubeChannels env = us.flatMap (processRow env) := by
  have h1 : getVideos (env.searchResp cid) = [] := by rw [hf]; rfl
  have h2 : processRow env u = [] := by
    simp only [processRow, hh, hc, h1, List.map_nil]
  refine ⟨h1, h2, ?_⟩
  rw [processYouTubeChannels_flatten, hrows, List.flatMap_cons, h2,
    List.nil_append]

/-- Witness for C9: a two-row environment whose first row resolves but
whose catalog fetch throws; the run's output is that of the second row
alone. -/
theorem catalog_fail_soft_witness :
    processYouTubeChannels failEnv =
      ([("youtube.com/@b").toList]).flatMap (processRow failEnv) :=
  (catalog_fail_soft failEnv demoUrl [("youtube.com/@b").toList]
    (("a").toList) (("UC1").toList) (by decide) (by decide) (by decide)
    rfl).2.2

/-- C2: when the per-video detail lookup of a fetched video yields null,
the video still appears in the final output, unchanged, at the same
index of its row's video list (catalog order among siblings preserved),
with all five enrichment fields absent; the run's output is the earlier
rows' lists, then this row's enriched list, then the later rows'. -/
theorem detail_fail_soft (env : Env) (us1 us2 : List Str) (u : Str)
    (handle cid : Str) (json : YouTubeApiResponse VideoItem) (i : Nat)
    (v : VideoData)
    (hrows : env.sheetUrls.take 5 = us1 ++ u :: us2)
    (hh : extractHandleFromUrl u = some handle)
    (hc : getChannelId (env.channelResp handle) = some cid)
    (hr : env.searchResp cid = .ok json)
    (hv : (getVideos (.ok json))[i]? = some v)
    (hd : getVideoDetails (env.detailResp (splitV1 v.url)) = none) :
    processYouTubeChannels env =
      us1.flatMap (processRow env) ++
        ((getVideos (.ok json)).map
            (enrich (fun vid => getVideoDetails (env.detailResp vid))) ++
          us2.flatMap (processRow env)) ∧
    ((getVideos (.ok json)).map
        (enrich (fun vid => getVideoDetails (env.detailResp vid))))[i]? =
      some v ∧
    v.viewCount = none ∧ v.likeCount = none ∧ v.commentCount = none ∧
    v.duration = none ∧ v.readableDuration = none := by
  have hrow : processRow env u =
      (getVideos (.ok json)).map
        (enrich (fun vid => getVideoDetails (env.detailResp vid))) := by
    simp only [processRow, hh, hc, hr]
  have he : enrich (fun vid => getVideoDetails (env.detailResp vid)) v = v := by
    simp only [enrich, hd]
  have hv' : (json.items.map summarize)[i]? = some v := hv
  rw [List.getElem?_map] at hv'
  have hfields : v.viewCount = none ∧ v.likeCount = none ∧
      v.commentCount = none ∧ v.duration = none ∧
      v.readableDuration = none := by
    cases hit : json.items[i]? with
    | none =>
      rw [hit] at hv'
      cases hv'
    | some it =>
      rw [hit] at hv'
      simp only [Option.map_some'] at hv'
      injection hv' with h2
      rw [← h2]
      exact ⟨rfl, rfl, rfl, rfl, rfl⟩
  refine ⟨?_, ?_, hfields⟩
  · rw [processYouTubeChannels_flatten, hrows, List.flatMap_append,
      List.flatMap_cons, hrow]
  · rw [List.getElem?_map, hv, Option.map_some', he]

/-- Witness for C2: a run whose only row resolves, with one catalog
video whose detail lookup yields an empty items list; the video sits
unchanged at index 0 of the output. -/
theorem detail_fail_soft_witness :
    ((getVideos (.ok { items := [demoItem] })).map
        (enrich (fun vid => getVideoDetails (demoEnvMiss.detailResp vid))))[0]? =
      some (summarize demoItem) :=
  (detail_fail_soft demoEnvMiss [] [] demoUrl (("a").toList)
    (("UC1").toList) { items := [demoItem] } 0 (summarize demoItem)
    rfl (by decide) (by decide) rfl (by decide) (by decide)).2.1

/-- C4: no step of the pipeline populates the duration field, so every
output row has duration absent; readableDuration, when populated (the
detail lookup succeeded, visible in a populated viewCount), is
parseDuration of the empty string, which is the empty string. -/
theorem dead_duration_field (env : Env) (v : VideoData)
    (hv : v ∈ processYouTubeChannels env) :
    v.duration = none ∧
    (v.viewCount ≠ none → v.readableDuration = some (parseDuration [])) ∧
    (v.readableDuration = none ∨ v.readableDuration = some []) := by
  rcases mem_processYouTubeChannels env v hv with ⟨it, hvit⟩
  cases hd : getVideoDetails (env.detailResp (splitV1 (summarize it).url)) with
  | none =>
    have hvw : v = summarize it := by
      rw [hvit]
      simp only [enrich, hd]
    rw [hvw]
    refine ⟨rfl, ?_, Or.inl rfl⟩
    intro habs
    exact absurd rfl habs
  | some d =>
    have hvw : v = applyDetails d (summarize it) := by
      rw [hvit]
      simp only [enrich, hd]
    rw [hvw]
    refine ⟨rfl, fun _ => rfl, Or.inr ?_⟩
    show some (parseDuration []) = some []
    decide

/-- Witness for C4: the single output row of the all-hits demo run. -/
theorem dead_duration_field_witness :
    (applyDetails demoDetail (summarize demoItem)).duration = none :=
  (dead_duration_field demoEnvHit (applyDetails demoDetail (summarize demoItem))
    (by decide)).1

/-- C10: every output row arises from an originating catalog item whose
summary it enriches, its url is the watch-URL stem prefixed to exactly
that item's video id, and the row's per-video detail lookup was keyed by
the id split back out of that very url at the token v= (splitV1): the
detail response at that key determines the row, un-enriched on a miss
and merged on a hit. -/
theorem url_invariant (env : Env) (v : VideoData)
    (hv : v ∈ processYouTubeChannels env) :
    ∃ it : VideoItem,
      v.url = watchStem ++ it.id.videoId ∧
      v = enrich (fun vid => getVideoDetails (env.detailResp vid)) (summarize it) ∧
      (getVideoDetails (env.detailResp (splitV1 v.url)) = none →
        v = summarize it) ∧
      (∀ d : DetailItem,
        getVideoDetails (env.detailResp (splitV1 v.url)) = some d →
        v = applyDetails d (summarize it)) := by
  rcases mem_processYouTubeChannels env v hv with ⟨it, hvit⟩
  have hu : (summarize it).url = v.url := by
    rw [hvit, enrich_url]
  refine ⟨it, ?_, hvit, ?_, ?_⟩
  · rw [hvit, enrich_url]
    rfl
  · intro h
    rw [← hu] at h
    rw [hvit]
    simp only [enrich, h]
  · intro d h
    rw [← hu] at h
    rw [hvit]
    simp only [enrich, h]

/-- Witness for C10: the single output row of the all-hits demo run,
with its originating catalog item, watch-URL shape and lookup key. -/
theorem url_invariant_witness :
    ∃ it : VideoItem,
      (applyDetails demoDetail (summarize demoItem)).url =
        watchStem ++ it.id.videoId ∧
      applyDetails demoDetail (summarize demoItem) =
        enrich (fun vid => getVideoDetails (demoEnvHit.detailResp vid))
          (summarize it) ∧
      (getVideoDetails (demoEnvHit.detailResp
          (splitV1 (applyDetails demoDetail (summarize demoItem)).url)) = none →
        applyDetails demoDetail (summarize demoItem) = summarize it) ∧
      (∀ d : DetailItem,
        getVideoDetails (demoEnvHit.detailResp
          (splitV1 (applyDetails demoDetail (summarize demoItem)).url)) = some d →
        applyDetails demoDetail (summarize demoItem) = applyDetails d (summarize it)) :=
  url_invariant demoEnvHit (applyDetails demoDetail (summarize demoItem))
    (by decide)

end YTS
